import Mathlib

/-!
# Heltec ESP32 LoRa v3 support library: battery gauge and chip temperature

A shallow embedding of `heltec_battery_percent`, `heltec_vbat` and
`heltec_temperature` from `src/heltec_unofficial.cpp`, with the constants
`min_voltage`, `max_voltage` and `scaled_voltage` of `src/heltec_unofficial.h`.

Conventions of the embedding:

* `float` values are exact rationals (`ℚ`): rounding, infinities and NaN are
  not modelled.
* `int` loop counters are natural numbers, the returned `int` is an `Int`.
* The board is an explicit state: the value the ADC delivers and the list of
  hardware accesses performed so far.
* The sensor driver is an oracle indexed by the loop counter, and every run
  records the driver calls it makes.
* Loops carry a fuel argument; the entry points pass enough fuel for every
  iteration the source loop can make.
-/

namespace Heltec

/-! ## Outcomes of a run -/

/-- How a modelled call ends: it returns a value, the firmware aborts inside
`ESP_ERROR_CHECK`, or the model itself gets stuck (an array read outside the
array, or fuel exhausted). -/
inductive Outcome (α : Type) where
  | returned (value : α)
  | aborted
  | stuck
  deriving DecidableEq

/-! ## Board state and `heltec_vbat` -/

/-- Pin modes used by the source. -/
inductive PinMode where
  | INPUT
  | OUTPUT
  deriving DecidableEq

/-- Pin levels used by the source. -/
inductive PinLevel where
  | LOW
  | HIGH
  deriving DecidableEq

/-- Hardware accesses made by the battery code. -/
inductive HwOp where
  | pinMode (pin : Nat) (mode : PinMode)
  | digitalWrite (pin : Nat) (level : PinLevel)
  | delay (ms : Nat)
  | analogRead (pin : Nat)
  deriving DecidableEq

/-- The voltage-measuring hardware: `adc` is what `analogRead(VBAT_ADC)`
delivers, `log` the accesses performed so far. -/
structure Board where
  adc : Nat
  log : List HwOp
  deriving DecidableEq

/-- Pin of the battery measurement switch: `#define VBAT_CTRL GPIO_NUM_37`. -/
def VBAT_CTRL : Nat := 37

/-- Pin of the battery ADC channel: `#define VBAT_ADC GPIO_NUM_1`. -/
def VBAT_ADC : Nat := 1

/-- Source `float heltec_vbat()`: drive the control pin, wait, sample the ADC, scale
by `238.7`, put the control pin back to input. -/
def heltec_vbat (b : Board) : ℚ × Board :=
  let b1 : Board := { b with log := b.log ++ [HwOp.pinMode VBAT_CTRL PinMode.OUTPUT] }
  let b2 : Board := { b1 with log := b1.log ++ [HwOp.digitalWrite VBAT_CTRL PinLevel.LOW] }
  let b3 : Board := { b2 with log := b2.log ++ [HwOp.delay 5] }
  let vbat : ℚ := (b3.adc : ℚ) / 238.7
  let b4 : Board := { b3 with log := b3.log ++ [HwOp.analogRead VBAT_ADC] }
  let b5 : Board := { b4 with log := b4.log ++ [HwOp.pinMode VBAT_CTRL PinMode.INPUT] }
  (vbat, b5)

/-! ## The discharge curve -/

/-- Empty-cell voltage: `const float min_voltage = 3.04;` -/
def min_voltage : ℚ := 3.04

/-- Full-cell voltage: `const float max_voltage = 4.26;` -/
def max_voltage : ℚ := 4.26

/-- Discharge curve: `const uint8_t scaled_voltage[100]`. -/
def scaled_voltage : List Nat := [
  254, 242, 230, 227, 223, 219, 215, 213, 210, 207,
  206, 202, 202, 200, 200, 199, 198, 198, 196, 196,
  195, 195, 194, 192, 191, 188, 187, 185, 185, 185,
  183, 182, 180, 179, 178, 175, 175, 174, 172, 171,
  170, 169, 168, 166, 166, 165, 165, 164, 161, 161,
  159, 158, 158, 157, 156, 155, 151, 148, 147, 145,
  143, 142, 140, 140, 136, 132, 130, 130, 129, 126,
  125, 124, 121, 120, 118, 116, 115, 114, 112, 112,
  110, 110, 108, 106, 106, 104, 102, 101, 99, 97,
  94, 90, 81, 80, 76, 73, 66, 52, 32, 7]

/-- Value of `sizeof(scaled_voltage)`: one byte per `uint8_t` entry. -/
def sizeof_scaled_voltage : Nat := scaled_voltage.length * 1

/-! ## `heltec_battery_percent` -/

/-- What a call of `heltec_battery_percent` leaves behind: the outcome, the
indices of `scaled_voltage` the scan read (in order), and the board. -/
structure BatteryRun where
  result : Outcome Int
  reads : List Nat
  board : Board
  deriving DecidableEq

/-- The `for` loop of `heltec_battery_percent`, entered with counter `n`.
Yields the outcome and the indices read. -/
def scan_loop (vbat : ℚ) : Nat → Nat → Outcome Int × List Nat
  | 0, _ => (Outcome.stuck, [])
  | fuel + 1, n =>
    if n < sizeof_scaled_voltage then
      match scaled_voltage[n]? with
      | none => (Outcome.stuck, [n])
      | some s =>
        let step : ℚ := (max_voltage - min_voltage) / 256
        if vbat > min_voltage + (step * (s : ℚ)) then
          (Outcome.returned (100 - (n : Int)), [n])
        else
          let rest := scan_loop vbat fuel (n + 1)
          (rest.1, n :: rest.2)
    else
      (Outcome.returned 0, [])

/-- Source `int heltec_battery_percent(float vbat)`: the argument `-1` asks for a
measurement through `heltec_vbat`; then the curve is scanned from index 0. -/
def heltec_battery_percent (vbat : ℚ) (b : Board) : BatteryRun :=
  let measured : ℚ × Board := if vbat = -1 then heltec_vbat b else (vbat, b)
  let scan := scan_loop measured.1 (sizeof_scaled_voltage + 1) 0
  { result := scan.1, reads := scan.2, board := measured.2 }

/-! ## `heltec_temperature` -/

/-- Source `int cutoffs[5]`: a reading at or below the cutoff of its range is kept. -/
def cutoffs : List Int := [-30, -10, 80, 100, 2500]

/-- Source `int range_start[]` of the branch for `ESP_ARDUINO_VERSION_MAJOR >= 3`. -/
def range_start : List Int := [-40, -30, -10, 20, 50]

/-- Source `int range_end[]` of the branch for `ESP_ARDUINO_VERSION_MAJOR >= 3`. -/
def range_end : List Int := [20, 50, 80, 100, 125]

/-- The DAC offsets of the legacy driver (`temp_sensor_dac_offset_t`). -/
inductive DacOffset where
  | TSENS_DAC_L0
  | TSENS_DAC_L1
  | TSENS_DAC_L2
  | TSENS_DAC_L3
  | TSENS_DAC_L4
  deriving DecidableEq

/-- Source `temp_sensor_dac_offset_t offsets[5]` of the legacy branch. -/
def offsets : List DacOffset :=
  [DacOffset.TSENS_DAC_L4, DacOffset.TSENS_DAC_L3, DacOffset.TSENS_DAC_L2,
   DacOffset.TSENS_DAC_L1, DacOffset.TSENS_DAC_L0]

/-- The driver calls `heltec_temperature` makes, under the names of the
source: five of the current driver, four of the legacy one. -/
inductive SensorCall where
  | temperature_sensor_install (range_min range_max : Int)
  | temperature_sensor_enable
  | temperature_sensor_get_celsius
  | temperature_sensor_disable
  | temperature_sensor_uninstall
  | temp_sensor_set_config (dac_offset : DacOffset)
  | temp_sensor_start
  | temp_sensor_read_celsius
  | temp_sensor_stop
  deriving DecidableEq

/-- The sensor driver as an oracle, indexed by the loop counter `n` of the
call. For the current driver `true` is `ESP_OK` and `get_celsius n = some r`
is `ESP_OK` with `r` stored in `result`. The legacy calls have their return
codes discarded by the source, so only what `temp_sensor_read_celsius` stores
is kept: `read_celsius n = some r` stores `r`, `none` stores nothing. -/
structure SensorDriver where
  install : Nat → Bool
  enable : Nat → Bool
  get_celsius : Nat → Option ℚ
  disable : Nat → Bool
  uninstall : Nat → Bool
  read_celsius : Nat → Option ℚ

/-- What a call of `heltec_temperature` leaves behind: the outcome and the
driver calls made, in order. -/
structure TemperatureRun where
  result : Outcome ℚ
  calls : List SensorCall
  deriving DecidableEq

/-- The loop of the branch for `ESP_ARDUINO_VERSION_MAJOR >= 3`, entered with
counter `n` and the current value of `result`. Every driver call is wrapped
in `ESP_ERROR_CHECK`, which aborts on failure. -/
def temperature_loop (d : SensorDriver) : Nat → Nat → ℚ → Outcome ℚ × List SensorCall
  | 0, _, _ => (Outcome.stuck, [])
  | fuel + 1, n, result =>
    if n < 5 then
      match range_start[n]?, range_end[n]?, cutoffs[n]? with
      | some lo, some hi, some cutoff =>
        let c1 := [SensorCall.temperature_sensor_install lo hi]
        if d.install n = false then (Outcome.aborted, c1) else
        let c2 := c1 ++ [SensorCall.temperature_sensor_enable]
        if d.enable n = false then (Outcome.aborted, c2) else
        let c3 := c2 ++ [SensorCall.temperature_sensor_get_celsius]
        match d.get_celsius n with
        | none => (Outcome.aborted, c3)
        | some r =>
          let c4 := c3 ++ [SensorCall.temperature_sensor_disable]
          if d.disable n = false then (Outcome.aborted, c4) else
          let c5 := c4 ++ [SensorCall.temperature_sensor_uninstall]
          if d.uninstall n = false then (Outcome.aborted, c5) else
          if r ≤ (cutoff : ℚ) then (Outcome.returned r, c5)
          else
            let rest := temperature_loop d fuel (n + 1) r
            (rest.1, c5 ++ rest.2)
      | _, _, _ => (Outcome.stuck, [])
    else
      (Outcome.returned result, [])

/-- The loop of the legacy branch, entered with counter `n` and the current
value of `result`. -/
def temperature_loop_legacy (d : SensorDriver) : Nat → Nat → ℚ → Outcome ℚ × List SensorCall
  | 0, _, _ => (Outcome.stuck, [])
  | fuel + 1, n, result =>
    if n < 5 then
      match offsets[n]?, cutoffs[n]? with
      | some dac_offset, some cutoff =>
        let calls := [SensorCall.temp_sensor_set_config dac_offset, SensorCall.temp_sensor_start,
          SensorCall.temp_sensor_read_celsius, SensorCall.temp_sensor_stop]
        let r : ℚ := match d.read_celsius n with
          | some r => r
          | none => result
        if r ≤ (cutoff : ℚ) then (Outcome.returned r, calls)
        else
          let rest := temperature_loop_legacy d fuel (n + 1) r
          (rest.1, calls ++ rest.2)
      | _, _ => (Outcome.stuck, [])
    else
      (Outcome.returned result, [])

/-- Source `float heltec_temperature()`, for a build with the given
`ESP_ARDUINO_VERSION_MAJOR` (defined by the Arduino core). -/
def heltec_temperature (ESP_ARDUINO_VERSION_MAJOR : Nat) (d : SensorDriver) : TemperatureRun :=
  let result : ℚ := 0
  let run :=
    if ESP_ARDUINO_VERSION_MAJOR ≥ 3 then temperature_loop d 6 0 result
    else temperature_loop_legacy d 6 0 result
  { result := run.1, calls := run.2 }

/-! ## Vocabulary of the properties -/

/-- Entry `n` of the curve (0 outside the table; only used inside it). -/
def curve (n : Nat) : Nat := scaled_voltage.getD n 0

/-- The test of the loop body at index `n`: `vbat` is strictly above the
threshold of entry `n`. -/
def exceeds (vbat : ℚ) (n : Nat) : Prop :=
  vbat > min_voltage + (((max_voltage - min_voltage) / 256) * (curve n : ℚ))

instance (vbat : ℚ) (n : Nat) : Decidable (exceeds vbat n) := by
  unfold exceeds; infer_instance

/-- The voltage the scan works on: the argument, or the measurement when the
argument is the sentinel `-1`. -/
def scanned_voltage (vbat : ℚ) (b : Board) : ℚ :=
  if vbat = -1 then (heltec_vbat b).1 else vbat

/-- A driver all of whose calls succeed, range `n` reading `r n`. -/
def succeeding (r : Nat → ℚ) : SensorDriver :=
  { install := fun _ => true
    enable := fun _ => true
    get_celsius := fun n => some (r n)
    disable := fun _ => true
    uninstall := fun _ => true
    read_celsius := fun n => some (r n) }

/-- Cutoff of range `n` as a rational (0 outside the table). -/
def cutoff (n : Nat) : ℚ := ((cutoffs.getD n 0 : Int) : ℚ)

/-- The five calls the current driver receives for range `n`. -/
def calls_of_range (n : Nat) : List SensorCall :=
  [SensorCall.temperature_sensor_install (range_start.getD n 0) (range_end.getD n 0),
   SensorCall.temperature_sensor_enable, SensorCall.temperature_sensor_get_celsius,
   SensorCall.temperature_sensor_disable, SensorCall.temperature_sensor_uninstall]

/-- The four calls the legacy driver receives for range `n`. -/
def legacy_calls_of_range (n : Nat) : List SensorCall :=
  [SensorCall.temp_sensor_set_config (offsets.getD n DacOffset.TSENS_DAC_L0),
   SensorCall.temp_sensor_start, SensorCall.temp_sensor_read_celsius,
   SensorCall.temp_sensor_stop]

/-- The calls a build makes for range `n`. -/
def build_calls_of_range (ESP_ARDUINO_VERSION_MAJOR : Nat) (n : Nat) : List SensorCall :=
  if ESP_ARDUINO_VERSION_MAJOR ≥ 3 then calls_of_range n else legacy_calls_of_range n

/-- The five operations of the sensor collaborator. -/
inductive DriverOp where
  | configure (range_start range_end : Int)
  | enable
  | read
  | disable
  | release
  deriving DecidableEq

/-- The operation a driver call stands for. The legacy `set_config` is
credited with the range its DAC offset selects (the ranges noted next to
`offsets` in the source). -/
def driver_op : SensorCall → DriverOp
  | SensorCall.temperature_sensor_install lo hi => DriverOp.configure lo hi
  | SensorCall.temperature_sensor_enable => DriverOp.enable
  | SensorCall.temperature_sensor_get_celsius => DriverOp.read
  | SensorCall.temperature_sensor_disable => DriverOp.disable
  | SensorCall.temperature_sensor_uninstall => DriverOp.release
  | SensorCall.temp_sensor_set_config DacOffset.TSENS_DAC_L4 => DriverOp.configure (-40) 20
  | SensorCall.temp_sensor_set_config DacOffset.TSENS_DAC_L3 => DriverOp.configure (-30) 50
  | SensorCall.temp_sensor_set_config DacOffset.TSENS_DAC_L2 => DriverOp.configure (-10) 80
  | SensorCall.temp_sensor_set_config DacOffset.TSENS_DAC_L1 => DriverOp.configure 20 100
  | SensorCall.temp_sensor_set_config DacOffset.TSENS_DAC_L0 => DriverOp.configure 50 125
  | SensorCall.temp_sensor_start => DriverOp.enable
  | SensorCall.temp_sensor_read_celsius => DriverOp.read
  | SensorCall.temp_sensor_stop => DriverOp.disable

/-- The operations a run performed on the sensor, in order. -/
def sensor_ops (run : TemperatureRun) : List DriverOp := run.calls.map driver_op

/-- Operations of one range in the order configure, enable, read, disable,
release. -/
def full_sequence_of_range (n : Nat) : List DriverOp :=
  [DriverOp.configure (range_start.getD n 0) (range_end.getD n 0), DriverOp.enable,
   DriverOp.read, DriverOp.disable, DriverOp.release]

/-- Operations of ranges `0..k`, each with all five operations. -/
def full_sequence (k : Nat) : List DriverOp :=
  (List.range (k + 1)).flatMap full_sequence_of_range

/-- Operations of one range as a build performs them: the release is there
only from `ESP_ARDUINO_VERSION_MAJOR` 3 on. -/
def build_sequence_of_range (ESP_ARDUINO_VERSION_MAJOR : Nat) (n : Nat) : List DriverOp :=
  [DriverOp.configure (range_start.getD n 0) (range_end.getD n 0), DriverOp.enable,
   DriverOp.read, DriverOp.disable] ++
  (if ESP_ARDUINO_VERSION_MAJOR ≥ 3 then [DriverOp.release] else [])

/-- Operations of ranges `0..k` as a build performs them. -/
def build_sequence (ESP_ARDUINO_VERSION_MAJOR : Nat) (k : Nat) : List DriverOp :=
  (List.range (k + 1)).flatMap (build_sequence_of_range ESP_ARDUINO_VERSION_MAJOR)

/-- States of the sensor as the driver sees it. -/
inductive SensorState where
  | released
  | disabled
  | enabled
  deriving DecidableEq

/-- One operation on the sensor; `none` when the operation is out of order
(a read or a disable while not enabled, an enable or a release while enabled,
a second enable). -/
def sensor_step : SensorState → DriverOp → Option SensorState
  | SensorState.released, DriverOp.configure _ _ => some SensorState.disabled
  | SensorState.disabled, DriverOp.configure _ _ => some SensorState.disabled
  | SensorState.disabled, DriverOp.enable => some SensorState.enabled
  | SensorState.enabled, DriverOp.read => some SensorState.enabled
  | SensorState.enabled, DriverOp.disable => some SensorState.disabled
  | SensorState.disabled, DriverOp.release => some SensorState.released
  | _, _ => none

/-- State of the sensor after a list of operations, `none` as soon as one is
out of order. -/
def sensor_after : SensorState → List DriverOp → Option SensorState
  | s, [] => some s
  | s, op :: ops =>
    match sensor_step s op with
    | none => none
    | some t => sensor_after t ops

/-! ## Facts about the scan -/

lemma scaled_voltage_length : scaled_voltage.length = 100 := rfl

lemma sizeof_scaled_voltage_eq : sizeof_scaled_voltage = 100 := rfl

lemma scaled_voltage_get (n : Nat) (h : n < 100) : scaled_voltage[n]? = some (curve n) := by
  unfold curve
  rw [List.getD_eq_getElem?_getD]
  have hlen : n < scaled_voltage.length := by rw [scaled_voltage_length]; exact h
  rw [List.getElem?_eq_getElem hlen]
  rfl

lemma scan_loop_step (vbat : ℚ) (fuel n : Nat) (h : n < 100) :
    scan_loop vbat (fuel + 1) n =
      if exceeds vbat n then (Outcome.returned (100 - (n : Int)), [n])
      else ((scan_loop vbat fuel (n + 1)).1, n :: (scan_loop vbat fuel (n + 1)).2) := by
  rw [scan_loop]
  rw [sizeof_scaled_voltage_eq, if_pos h, scaled_voltage_get n h]
  rfl

lemma scan_loop_exit (vbat : ℚ) (fuel n : Nat) (h : 100 ≤ n) :
    scan_loop vbat (fuel + 1) n = (Outcome.returned 0, []) := by
  rw [scan_loop]
  rw [sizeof_scaled_voltage_eq, if_neg (by omega)]

lemma scan_loop_miss (vbat : ℚ) :
    ∀ (fuel n : Nat), n ≤ 100 → 100 - n < fuel →
      (∀ j, n ≤ j → j < 100 → ¬ exceeds vbat j) →
      scan_loop vbat fuel n = (Outcome.returned 0, List.range' n (100 - n)) := by
  intro fuel
  induction fuel with
  | zero => intro n _ hf; omega
  | succ fuel ih =>
    intro n hn hf hmiss
    by_cases hlt : n < 100
    · rw [scan_loop_step vbat fuel n hlt, if_neg (hmiss n le_rfl hlt)]
      rw [ih (n + 1) (by omega) (by omega) (fun j hj hj2 => hmiss j (by omega) hj2)]
      have : 100 - n = (100 - (n + 1)) + 1 := by omega
      rw [this, List.range'_succ]
    · have : n = 100 := by omega
      subst this
      rw [scan_loop_exit vbat fuel 100 le_rfl]
      rfl

lemma scan_loop_hit (vbat : ℚ) (k : Nat) (hk : k < 100) (hex : exceeds vbat k) :
    ∀ (fuel n : Nat), n ≤ k → k - n < fuel →
      (∀ j, n ≤ j → j < k → ¬ exceeds vbat j) →
      scan_loop vbat fuel n = (Outcome.returned (100 - (k : Int)), List.range' n (k - n + 1)) := by
  intro fuel
  induction fuel with
  | zero => intro n _ hf; omega
  | succ fuel ih =>
    intro n hn hf hmiss
    have hlt : n < 100 := by omega
    rw [scan_loop_step vbat fuel n hlt]
    by_cases hnk : n = k
    · subst hnk
      rw [if_pos hex]
      simp
    · rw [if_neg (hmiss n le_rfl (by omega))]
      rw [ih (n + 1) (by omega) (by omega) (fun j hj hj2 => hmiss j (by omega) hj2)]
      have : k - n + 1 = (k - (n + 1) + 1) + 1 := by omega
      rw [this, List.range'_succ n]

lemma battery_percent_hit (vbat : ℚ) (b : Board) (k : Nat) (hk : k < 100)
    (hex : exceeds (scanned_voltage vbat b) k)
    (hmiss : ∀ j, j < k → ¬ exceeds (scanned_voltage vbat b) j) :
    (heltec_battery_percent vbat b).result = Outcome.returned (100 - (k : Int)) ∧
    (heltec_battery_percent vbat b).reads = List.range' 0 (k + 1) := by
  have h := scan_loop_hit (scanned_voltage vbat b) k hk hex (sizeof_scaled_voltage + 1) 0
    (Nat.zero_le k) (by rw [sizeof_scaled_voltage_eq]; omega) (fun j _ hj => hmiss j hj)
  unfold heltec_battery_percent
  unfold scanned_voltage at h
  by_cases hv : vbat = -1
  · simp only [hv, if_true] at h ⊢
    rw [h]; simp
  · simp only [hv, if_false] at h ⊢
    rw [h]; simp

lemma battery_percent_miss (vbat : ℚ) (b : Board)
    (hmiss : ∀ j, j < 100 → ¬ exceeds (scanned_voltage vbat b) j) :
    (heltec_battery_percent vbat b).result = Outcome.returned 0 ∧
    (heltec_battery_percent vbat b).reads = List.range' 0 100 := by
  have h := scan_loop_miss (scanned_voltage vbat b) (sizeof_scaled_voltage + 1) 0
    (Nat.zero_le _) (by rw [sizeof_scaled_voltage_eq]; omega) (fun j _ hj => hmiss j hj)
  unfold heltec_battery_percent
  unfold scanned_voltage at h
  by_cases hv : vbat = -1
  · simp only [hv, if_true] at h ⊢
    rw [h]; simp
  · simp only [hv, if_false] at h ⊢
    rw [h]; simp

/-- Every call falls in exactly one of the two cases: some first index is
exceeded, or none is. -/
lemma battery_percent_cases (vbat : ℚ) (b : Board) :
    (∃ k, k < 100 ∧ exceeds (scanned_voltage vbat b) k ∧
      (∀ j, j < k → ¬ exceeds (scanned_voltage vbat b) j) ∧
      (heltec_battery_percent vbat b).result = Outcome.returned (100 - (k : Int)) ∧
      (heltec_battery_percent vbat b).reads = List.range' 0 (k + 1)) ∨
    ((∀ j, j < 100 → ¬ exceeds (scanned_voltage vbat b) j) ∧
      (heltec_battery_percent vbat b).result = Outcome.returned 0 ∧
      (heltec_battery_percent vbat b).reads = List.range' 0 100) := by
  by_cases h : ∃ k, k < 100 ∧ exceeds (scanned_voltage vbat b) k
  · left
    classical
    refine ⟨Nat.find h, (Nat.find_spec h).1, (Nat.find_spec h).2, ?_, ?_⟩
    · intro j hj hex
      exact Nat.find_min h hj ⟨lt_trans hj (Nat.find_spec h).1, hex⟩
    · exact battery_percent_hit vbat b _ (Nat.find_spec h).1 (Nat.find_spec h).2
        (fun j hj hex => Nat.find_min h hj ⟨lt_trans hj (Nat.find_spec h).1, hex⟩)
  · right
    have hmiss : ∀ j, j < 100 → ¬ exceeds (scanned_voltage vbat b) j :=
      fun j hj hex => h ⟨j, hj, hex⟩
    exact ⟨hmiss, battery_percent_miss vbat b hmiss⟩

/-! ## Facts about the curve -/

lemma exceeds_iff (v : ℚ) (n : Nat) :
    exceeds v n ↔ (curve n : ℚ) * 61 < (v - 76 / 25) * 12800 := by
  unfold exceeds min_voltage max_voltage
  constructor <;> intro h <;> norm_num at h ⊢ <;> linarith

lemma exceeds_mono {v w : ℚ} (h : v ≤ w) (n : Nat) (hv : exceeds v n) : exceeds w n := by
  unfold exceeds at hv ⊢
  exact lt_of_lt_of_le hv h

lemma not_exceeds_of_le_min {v : ℚ} (h : v ≤ min_voltage) (n : Nat) : ¬ exceeds v n := by
  rw [exceeds_iff]
  unfold min_voltage at h
  have hc : (0 : ℚ) ≤ (curve n : ℚ) := Nat.cast_nonneg _
  norm_num at h
  intro hlt
  linarith

/-- Thresholds of the curve written with a natural multiplier `m`: the
voltage `min_voltage + step * m` exceeds entry `n` exactly when
`scaled_voltage[n] < m`. -/
lemma exceeds_at_level (m n : Nat) :
    exceeds (min_voltage + (((max_voltage - min_voltage) / 256) * (m : ℚ))) n ↔ curve n < m := by
  rw [exceeds_iff]
  unfold min_voltage max_voltage
  constructor
  · intro h
    norm_num at h
    have h2 : (curve n : ℚ) < (m : ℚ) := by linarith
    exact_mod_cast h2
  · intro h
    have h2 : (curve n : ℚ) < (m : ℚ) := by exact_mod_cast h
    norm_num
    linarith

set_option maxRecDepth 100000 in
lemma curve_head_50 : ∀ j, j < 51 → ¬ curve j < 159 := by
  decide

set_option maxRecDepth 100000 in
lemma curve_head_22 : ∀ j, j < 22 → ¬ curve j < 195 := by
  decide

lemma curve_0 : curve 0 = 254 := rfl

lemma curve_1 : curve 1 = 242 := rfl

lemma curve_2 : curve 2 = 230 := rfl

lemma curve_50 : curve 50 = 159 := rfl

lemma curve_51 : curve 51 = 158 := rfl

lemma curve_22 : curve 22 = 194 := rfl

/-! ## The sentinel `-1` -/

lemma min_voltage_gt_sentinel : (-1 : ℚ) < min_voltage := by
  unfold min_voltage; norm_num

lemma scanned_voltage_of_ne {vbat : ℚ} (h : vbat ≠ -1) (b : Board) :
    scanned_voltage vbat b = vbat := by
  unfold scanned_voltage; rw [if_neg h]

lemma scanned_voltage_sentinel (b : Board) :
    scanned_voltage (-1) b = (b.adc : ℚ) / 238.7 := by
  unfold scanned_voltage heltec_vbat; simp

lemma battery_board_of_ne {vbat : ℚ} (h : vbat ≠ -1) (b : Board) :
    (heltec_battery_percent vbat b).board = b := by
  unfold heltec_battery_percent; simp [h]

lemma battery_board_sentinel (b : Board) :
    (heltec_battery_percent (-1) b).board =
      { adc := b.adc,
        log := b.log ++ [HwOp.pinMode VBAT_CTRL PinMode.OUTPUT, HwOp.digitalWrite VBAT_CTRL PinLevel.LOW,
          HwOp.delay 5, HwOp.analogRead VBAT_ADC, HwOp.pinMode VBAT_CTRL PinMode.INPUT] } := by
  unfold heltec_battery_percent heltec_vbat; simp

lemma battery_scan_of_ne {vbat : ℚ} (h : vbat ≠ -1) (b : Board) :
    (heltec_battery_percent vbat b).result = (scan_loop vbat (sizeof_scaled_voltage + 1) 0).1 ∧
    (heltec_battery_percent vbat b).reads = (scan_loop vbat (sizeof_scaled_voltage + 1) 0).2 := by
  unfold heltec_battery_percent; simp [h]

lemma exceeds_scanned_of_le {v1 v2 : ℚ} (h : v1 ≤ v2) (b2 : Board) (k : Nat)
    (hex : exceeds v1 k) : exceeds (scanned_voltage v2 b2) k := by
  by_cases hv : v2 = -1
  · exfalso
    have hle : v1 ≤ min_voltage := by
      have := min_voltage_gt_sentinel
      rw [hv] at h
      linarith
    exact not_exceeds_of_le_min hle k hex
  · rw [scanned_voltage_of_ne hv]
    exact exceeds_mono h k hex

/-- A board whose ADC delivers 1000 (about 4.19 V): the measurement is above
the thresholds of entries 2.. and not above those of entries 0 and 1. -/
lemma battery_percent_sentinel_adc_1000 (log : List HwOp) :
    (heltec_battery_percent (-1) ⟨1000, log⟩).result = Outcome.returned 98 := by
  have h := (battery_percent_hit (-1) ⟨1000, log⟩ 2 (by norm_num)
    (by rw [scanned_voltage_sentinel, exceeds_iff, curve_2]; norm_num)
    (by
      intro j hj
      rw [scanned_voltage_sentinel, exceeds_iff]
      interval_cases j
      · rw [curve_0]; norm_num
      · rw [curve_1]; norm_num)).1
  rw [h]; norm_num

/-- A board whose ADC delivers 0: the measurement is 0 V and the scan falls
through. -/
lemma battery_percent_sentinel_adc_0 (log : List HwOp) :
    (heltec_battery_percent (-1) ⟨0, log⟩).result = Outcome.returned 0 := by
  refine (battery_percent_miss (-1) ⟨0, log⟩ ?_).1
  intro j _
  apply not_exceeds_of_le_min
  rw [scanned_voltage_sentinel]
  unfold min_voltage
  norm_num

lemma heltec_vbat_value (b : Board) : (heltec_vbat b).1 = (b.adc : ℚ) / 238.7 := rfl

lemma heltec_vbat_board (b : Board) :
    (heltec_vbat b).2 =
      { adc := b.adc,
        log := b.log ++ [HwOp.pinMode VBAT_CTRL PinMode.OUTPUT,
          HwOp.digitalWrite VBAT_CTRL PinLevel.LOW, HwOp.delay 5, HwOp.analogRead VBAT_ADC,
          HwOp.pinMode VBAT_CTRL PinMode.INPUT] } := by
  unfold heltec_vbat; simp

/-- A measurement is never the sentinel: it is not negative. -/
lemma heltec_vbat_ne_sentinel (b : Board) : (heltec_vbat b).1 ≠ -1 := by
  rw [heltec_vbat_value]
  have hadc : (0 : ℚ) ≤ (b.adc : ℚ) := Nat.cast_nonneg _
  have hpos : (0 : ℚ) ≤ (b.adc : ℚ) / 238.7 := div_nonneg hadc (by norm_num)
  intro hc
  rw [hc] at hpos
  norm_num at hpos

/-- With the sentinel the scan runs on the measurement, and the board is the
one `heltec_vbat` leaves. -/
lemma battery_scan_sentinel (b : Board) :
    (heltec_battery_percent (-1) b).result =
      (scan_loop (heltec_vbat b).1 (sizeof_scaled_voltage + 1) 0).1 ∧
    (heltec_battery_percent (-1) b).reads =
      (scan_loop (heltec_vbat b).1 (sizeof_scaled_voltage + 1) 0).2 ∧
    (heltec_battery_percent (-1) b).board = (heltec_vbat b).2 := by
  unfold heltec_battery_percent; simp

set_option maxRecDepth 100000 in
lemma curve_head_56 : ∀ j, j < 56 → 155 ≤ curve j := by
  decide

lemma curve_56 : curve 56 = 151 := rfl

/-- A measurement with the ADC at 900 (about 3.77 V), passed as the argument:
entry 56 is the first one exceeded. -/
lemma battery_percent_measured_900 (log : List HwOp) (b : Board) :
    (heltec_battery_percent (heltec_vbat ⟨900, log⟩).1 b).result = Outcome.returned 44 := by
  have hne := heltec_vbat_ne_sentinel ⟨900, log⟩
  have hh := (battery_percent_hit (heltec_vbat ⟨900, log⟩).1 b 56 (by norm_num)
    (by
      rw [scanned_voltage_of_ne hne, heltec_vbat_value, exceeds_iff, curve_56]
      norm_num)
    (by
      intro j hj
      rw [scanned_voltage_of_ne hne, heltec_vbat_value, exceeds_iff]
      have h155 : (155 : ℚ) ≤ (curve j : ℚ) := by exact_mod_cast curve_head_56 j hj
      norm_num
      linarith)).1
  rw [hh]; norm_num

/-! ## Facts about the temperature scan -/

lemma temperature_loop_step (r : Nat → ℚ) (fuel n : Nat) (result : ℚ) (hn : n < 5) :
    temperature_loop (succeeding r) (fuel + 1) n result =
      if r n ≤ cutoff n then (Outcome.returned (r n), calls_of_range n)
      else ((temperature_loop (succeeding r) fuel (n + 1) (r n)).1,
        calls_of_range n ++ (temperature_loop (succeeding r) fuel (n + 1) (r n)).2) := by
  interval_cases n <;>
    (rw [temperature_loop]
     simp [succeeding, cutoff, cutoffs, range_start, range_end, calls_of_range])

lemma temperature_loop_exit (d : SensorDriver) (fuel n : Nat) (result : ℚ) (hn : 5 ≤ n) :
    temperature_loop d (fuel + 1) n result = (Outcome.returned result, []) := by
  rw [temperature_loop, if_neg (by omega)]

lemma temperature_loop_legacy_step (r : Nat → ℚ) (fuel n : Nat) (result : ℚ) (hn : n < 5) :
    temperature_loop_legacy (succeeding r) (fuel + 1) n result =
      if r n ≤ cutoff n then (Outcome.returned (r n), legacy_calls_of_range n)
      else ((temperature_loop_legacy (succeeding r) fuel (n + 1) (r n)).1,
        legacy_calls_of_range n ++ (temperature_loop_legacy (succeeding r) fuel (n + 1) (r n)).2) := by
  interval_cases n <;>
    (rw [temperature_loop_legacy]
     simp [succeeding, cutoff, cutoffs, offsets, legacy_calls_of_range])

lemma temperature_loop_legacy_exit (d : SensorDriver) (fuel n : Nat) (result : ℚ) (hn : 5 ≤ n) :
    temperature_loop_legacy d (fuel + 1) n result = (Outcome.returned result, []) := by
  rw [temperature_loop_legacy, if_neg (by omega)]

lemma temperature_loop_accept (r : Nat → ℚ) (k : Nat) (hk : k < 5)
    (hacc : r k ≤ cutoff k ∨ k = 4) :
    ∀ (fuel n : Nat) (result : ℚ), n ≤ k → k - n + 1 < fuel →
      (∀ j, n ≤ j → j < k → ¬ r j ≤ cutoff j) →
      temperature_loop (succeeding r) fuel n result =
        (Outcome.returned (r k), (List.range' n (k - n + 1)).flatMap calls_of_range) := by
  intro fuel
  induction fuel with
  | zero => intro n _ _ hf; omega
  | succ fuel ih =>
    intro n result hn hf hrej
    rw [temperature_loop_step r fuel n result (by omega)]
    by_cases hnk : n = k
    · subst hnk
      by_cases hle : r n ≤ cutoff n
      · rw [if_pos hle]; simp
      · rw [if_neg hle]
        have h4 : n = 4 := by
          rcases hacc with h | h
          · exact absurd h hle
          · exact h
        obtain ⟨fuel, rfl⟩ : ∃ f, fuel = f + 1 := ⟨fuel - 1, by omega⟩
        rw [temperature_loop_exit _ fuel (n + 1) (r n) (by omega)]
        simp
    · rw [if_neg (hrej n le_rfl (by omega))]
      rw [ih (n + 1) (r n) (by omega) (by omega) (fun j hj hj2 => hrej j (by omega) hj2)]
      have : k - n + 1 = (k - (n + 1) + 1) + 1 := by omega
      rw [this, List.range'_succ n]
      simp

lemma temperature_loop_legacy_accept (r : Nat → ℚ) (k : Nat) (hk : k < 5)
    (hacc : r k ≤ cutoff k ∨ k = 4) :
    ∀ (fuel n : Nat) (result : ℚ), n ≤ k → k - n + 1 < fuel →
      (∀ j, n ≤ j → j < k → ¬ r j ≤ cutoff j) →
      temperature_loop_legacy (succeeding r) fuel n result =
        (Outcome.returned (r k), (List.range' n (k - n + 1)).flatMap legacy_calls_of_range) := by
  intro fuel
  induction fuel with
  | zero => intro n _ _ hf; omega
  | succ fuel ih =>
    intro n result hn hf hrej
    rw [temperature_loop_legacy_step r fuel n result (by omega)]
    by_cases hnk : n = k
    · subst hnk
      by_cases hle : r n ≤ cutoff n
      · rw [if_pos hle]; simp
      · rw [if_neg hle]
        have h4 : n = 4 := by
          rcases hacc with h | h
          · exact absurd h hle
          · exact h
        obtain ⟨fuel, rfl⟩ : ∃ f, fuel = f + 1 := ⟨fuel - 1, by omega⟩
        rw [temperature_loop_legacy_exit _ fuel (n + 1) (r n) (by omega)]
        simp
    · rw [if_neg (hrej n le_rfl (by omega))]
      rw [ih (n + 1) (r n) (by omega) (by omega) (fun j hj hj2 => hrej j (by omega) hj2)]
      have : k - n + 1 = (k - (n + 1) + 1) + 1 := by omega
      rw [this, List.range'_succ n]
      simp

/-- With a succeeding driver, the run is fixed by the accepted index `k`: the
first range whose reading is at or below its cutoff, or the last range. -/
lemma heltec_temperature_accept (v : Nat) (r : Nat → ℚ) (k : Nat) (hk : k < 5)
    (hacc : r k ≤ cutoff k ∨ k = 4) (hrej : ∀ j, j < k → ¬ r j ≤ cutoff j) :
    heltec_temperature v (succeeding r) =
      { result := Outcome.returned (r k),
        calls := (List.range' 0 (k + 1)).flatMap (build_calls_of_range v) } := by
  unfold heltec_temperature
  by_cases hv : v ≥ 3
  · have h := temperature_loop_accept r k hk hacc 6 0 0 (Nat.zero_le k) (by omega)
      (fun j _ hj => hrej j hj)
    have hb : build_calls_of_range v = calls_of_range := by
      funext n; unfold build_calls_of_range; rw [if_pos hv]
    simp only [hv, if_true, h, hb, Nat.sub_zero]
  · have h := temperature_loop_legacy_accept r k hk hacc 6 0 0 (Nat.zero_le k) (by omega)
      (fun j _ hj => hrej j hj)
    have hb : build_calls_of_range v = legacy_calls_of_range := by
      funext n; unfold build_calls_of_range; rw [if_neg hv]
    simp only [hv, if_false, h, hb, Nat.sub_zero]

/-- Every reading sequence has an accepted index. -/
lemma accepted_index_exists (r : Nat → ℚ) :
    ∃ k, k < 5 ∧ (r k ≤ cutoff k ∨ k = 4) ∧ (∀ j, j < k → ¬ r j ≤ cutoff j) := by
  by_cases h : ∃ k, k < 5 ∧ r k ≤ cutoff k
  · classical
    refine ⟨Nat.find h, (Nat.find_spec h).1, Or.inl (Nat.find_spec h).2, ?_⟩
    intro j hj hle
    exact Nat.find_min h hj ⟨lt_trans hj (Nat.find_spec h).1, hle⟩
  · exact ⟨4, by norm_num, Or.inr rfl, fun j hj hle => h ⟨j, by omega, hle⟩⟩

/-! ## Battery gauge: the claims -/

/-- C1 (as stated, refuted): the argument `-1` is at or below `min_voltage`,
yet on a board whose ADC delivers 1000 (about 4.19 V) the call measures the
battery and returns 98, not 0. -/
theorem battery_percent_sentinel_not_zero :
    (-1 : ℚ) ≤ min_voltage ∧
    (heltec_battery_percent (-1) ⟨1000, []⟩).result = Outcome.returned 98 ∧
    (heltec_battery_percent (-1) ⟨1000, []⟩).result ≠ Outcome.returned 0 := by
  refine ⟨le_of_lt min_voltage_gt_sentinel, battery_percent_sentinel_adc_1000 [], ?_⟩
  rw [battery_percent_sentinel_adc_1000]
  decide

/-- C1 (amended): for every argument `vbat` at or below `min_voltage` the call
returns 0, provided that, when `vbat` is the sentinel `-1` (which makes the
function measure the battery), the measured voltage is at or below
`min_voltage` too. -/
theorem battery_percent_zero_at_or_below_min (vbat : ℚ) (b : Board)
    (h : vbat ≤ min_voltage) (hs : vbat = -1 → (heltec_vbat b).1 ≤ min_voltage) :
    (heltec_battery_percent vbat b).result = Outcome.returned 0 := by
  refine (battery_percent_miss vbat b ?_).1
  intro j _
  apply not_exceeds_of_le_min
  unfold scanned_voltage
  split_ifs with hv
  · exact hs hv
  · exact h

/-- C1 (amended), at the argument 3 V on a board whose ADC delivers 1000. -/
theorem battery_percent_zero_at_or_below_min_witness :
    (3 : ℚ) ≤ min_voltage ∧ ((3 : ℚ) = -1 → (heltec_vbat ⟨1000, []⟩).1 ≤ min_voltage) ∧
    (heltec_battery_percent 3 ⟨1000, []⟩).result = Outcome.returned 0 :=
  ⟨by unfold min_voltage; norm_num, by norm_num,
   battery_percent_zero_at_or_below_min 3 ⟨1000, []⟩ (by unfold min_voltage; norm_num)
     (by norm_num)⟩

/-- C2: for every argument `vbat` at or above `max_voltage` the call returns
100, and the scan reads index 0 of `scaled_voltage` only. -/
theorem battery_percent_full_at_or_above_max (vbat : ℚ) (b : Board)
    (h : max_voltage ≤ vbat) :
    (heltec_battery_percent vbat b).result = Outcome.returned 100 ∧
    (heltec_battery_percent vbat b).reads = [0] := by
  have hmax : (4.26 : ℚ) ≤ vbat := h
  have hv : vbat ≠ -1 := by
    intro hv; rw [hv] at hmax; norm_num at hmax
  have hex : exceeds (scanned_voltage vbat b) 0 := by
    rw [scanned_voltage_of_ne hv, exceeds_iff, curve_0]
    norm_num at hmax ⊢
    linarith
  have hh := battery_percent_hit vbat b 0 (by norm_num) hex (fun j hj => absurd hj (Nat.not_lt_zero j))
  refine ⟨?_, ?_⟩
  · rw [hh.1]; norm_num
  · rw [hh.2]; rfl

/-- C2, at the argument 4.26 V. -/
theorem battery_percent_full_at_or_above_max_witness :
    max_voltage ≤ (4.26 : ℚ) ∧
    (heltec_battery_percent 4.26 ⟨0, []⟩).result = Outcome.returned 100 ∧
    (heltec_battery_percent 4.26 ⟨0, []⟩).reads = [0] :=
  ⟨le_refl _, battery_percent_full_at_or_above_max 4.26 ⟨0, []⟩ (le_refl _)⟩

/-- C3 (as stated, refuted): `-1 ≤ 0`, yet on a board whose ADC delivers 1000
the argument `-1` gives 98 and the argument `0` gives 0. -/
theorem battery_percent_not_monotone_at_sentinel :
    (-1 : ℚ) ≤ 0 ∧
    (heltec_battery_percent (-1) ⟨1000, []⟩).result = Outcome.returned 98 ∧
    (heltec_battery_percent 0 ⟨1000, []⟩).result = Outcome.returned 0 ∧
    ¬ ((98 : Int) ≤ 0) := by
  refine ⟨by norm_num, battery_percent_sentinel_adc_1000 [], ?_, by norm_num⟩
  refine (battery_percent_miss 0 ⟨1000, []⟩ ?_).1
  intro j _
  apply not_exceeds_of_le_min
  rw [scanned_voltage_of_ne (by norm_num)]
  unfold min_voltage
  norm_num

/-- C3 (amended): for all arguments `v1 ≤ v2` with `v1` not the sentinel `-1`,
both calls return and the percentage for `v1` is at most the percentage for
`v2`, whatever the boards. -/
theorem battery_percent_monotone (v1 v2 : ℚ) (b1 b2 : Board)
    (h : v1 ≤ v2) (hs : v1 ≠ -1) :
    ∃ p1 p2 : Int,
      (heltec_battery_percent v1 b1).result = Outcome.returned p1 ∧
      (heltec_battery_percent v2 b2).result = Outcome.returned p2 ∧ p1 ≤ p2 := by
  rcases battery_percent_cases v1 b1 with ⟨k1, hk1, hex1, _, hr1, _⟩ | ⟨_, hr1, _⟩
  · rw [scanned_voltage_of_ne hs] at hex1
    have hex2 : exceeds (scanned_voltage v2 b2) k1 := exceeds_scanned_of_le h b2 k1 hex1
    rcases battery_percent_cases v2 b2 with ⟨k2, _, _, hmiss2, hr2, _⟩ | ⟨hmiss2, _, _⟩
    · refine ⟨100 - (k1 : Int), 100 - (k2 : Int), hr1, hr2, ?_⟩
      have hle : k2 ≤ k1 := by
        by_contra hlt
        exact hmiss2 k1 (by omega) hex2
      omega
    · exact absurd hex2 (hmiss2 k1 hk1)
  · rcases battery_percent_cases v2 b2 with ⟨k2, hk2, _, _, hr2, _⟩ | ⟨_, hr2, _⟩
    · exact ⟨0, 100 - (k2 : Int), hr1, hr2, by omega⟩
    · exact ⟨0, 0, hr1, hr2, le_refl _⟩

/-- C3 (amended), at the arguments 3.5 V and 4 V. -/
theorem battery_percent_monotone_witness :
    (3.5 : ℚ) ≤ 4 ∧ (3.5 : ℚ) ≠ -1 ∧
    ∃ p1 p2 : Int,
      (heltec_battery_percent 3.5 ⟨0, []⟩).result = Outcome.returned p1 ∧
      (heltec_battery_percent 4 ⟨0, []⟩).result = Outcome.returned p2 ∧ p1 ≤ p2 :=
  ⟨by norm_num, by norm_num,
   battery_percent_monotone 3.5 4 ⟨0, []⟩ ⟨0, []⟩ (by norm_num) (by norm_num)⟩

/-- C4: for every argument and every board the call returns an integer `p`
with `0 ≤ p ≤ 100`, and every index of `scaled_voltage` the scan reads is
below 100. -/
theorem battery_percent_in_range (vbat : ℚ) (b : Board) :
    ∃ p : Int, (heltec_battery_percent vbat b).result = Outcome.returned p ∧
      0 ≤ p ∧ p ≤ 100 ∧ ∀ i ∈ (heltec_battery_percent vbat b).reads, i < 100 := by
  rcases battery_percent_cases vbat b with ⟨k, hk, _, _, hr, hreads⟩ | ⟨_, hr, hreads⟩
  · refine ⟨100 - (k : Int), hr, by omega, by omega, ?_⟩
    intro i hi
    rw [hreads, List.mem_range'_1] at hi
    omega
  · refine ⟨0, hr, le_refl _, by norm_num, ?_⟩
    intro i hi
    rw [hreads, List.mem_range'_1] at hi
    omega

/-- C5 (as stated, refuted): with the argument `-1` the result depends on
the board (98 when the ADC delivers 1000, 0 when it delivers 0), and the call
performs five hardware accesses. -/
theorem battery_percent_sentinel_reads_hardware :
    (heltec_battery_percent (-1) ⟨1000, []⟩).result ≠
      (heltec_battery_percent (-1) ⟨0, []⟩).result ∧
    (heltec_battery_percent (-1) ⟨1000, []⟩).board.log =
      [HwOp.pinMode 37 PinMode.OUTPUT, HwOp.digitalWrite 37 PinLevel.LOW, HwOp.delay 5,
       HwOp.analogRead 1, HwOp.pinMode 37 PinMode.INPUT] ∧
    (heltec_battery_percent (-1) ⟨1000, []⟩).board ≠ ⟨1000, []⟩ := by
  refine ⟨?_, ?_, ?_⟩
  · rw [battery_percent_sentinel_adc_1000, battery_percent_sentinel_adc_0]
    decide
  · rw [battery_board_sentinel]; rfl
  · rw [battery_board_sentinel]; decide

/-- C5 (amended): for every argument other than the sentinel `-1` and any two
boards, the two calls return the same percentage after reading the same
indices, and each leaves its board as it was (no hardware access). With the
argument `-1`, on every board, the function calls `heltec_vbat()` (the five
hardware accesses of a measurement, in order, appended to the log) and its
result and the indices read are those of the measured voltage `adc / 238.7`
passed as the argument. -/
theorem battery_percent_pure (vbat : ℚ) (b1 b2 : Board) :
    (vbat ≠ -1 →
      (heltec_battery_percent vbat b1).result = (heltec_battery_percent vbat b2).result ∧
      (heltec_battery_percent vbat b1).reads = (heltec_battery_percent vbat b2).reads ∧
      (heltec_battery_percent vbat b1).board = b1 ∧
      (heltec_battery_percent vbat b2).board = b2) ∧
    (vbat = -1 →
      (heltec_vbat b1).1 = (b1.adc : ℚ) / 238.7 ∧
      (heltec_battery_percent vbat b1).result =
        (heltec_battery_percent (heltec_vbat b1).1 b2).result ∧
      (heltec_battery_percent vbat b1).reads =
        (heltec_battery_percent (heltec_vbat b1).1 b2).reads ∧
      (heltec_battery_percent vbat b1).result =
        (scan_loop ((b1.adc : ℚ) / 238.7) (sizeof_scaled_voltage + 1) 0).1 ∧
      (heltec_battery_percent vbat b1).board = (heltec_vbat b1).2 ∧
      (heltec_battery_percent vbat b1).board.adc = b1.adc ∧
      (heltec_battery_percent vbat b1).board.log =
        b1.log ++ [HwOp.pinMode VBAT_CTRL PinMode.OUTPUT,
          HwOp.digitalWrite VBAT_CTRL PinLevel.LOW, HwOp.delay 5, HwOp.analogRead VBAT_ADC,
          HwOp.pinMode VBAT_CTRL PinMode.INPUT]) := by
  constructor
  · intro hs
    refine ⟨?_, ?_, battery_board_of_ne hs b1, battery_board_of_ne hs b2⟩
    · rw [(battery_scan_of_ne hs b1).1, (battery_scan_of_ne hs b2).1]
    · rw [(battery_scan_of_ne hs b1).2, (battery_scan_of_ne hs b2).2]
  · intro hs
    subst hs
    have hne := heltec_vbat_ne_sentinel b1
    obtain ⟨hres, hreads, hboard⟩ := battery_scan_sentinel b1
    refine ⟨rfl, ?_, ?_, ?_, hboard, ?_, ?_⟩
    · rw [hres, (battery_scan_of_ne hne b2).1]
    · rw [hreads, (battery_scan_of_ne hne b2).2]
    · rw [hres, heltec_vbat_value]
    · rw [hboard, heltec_vbat_board]
    · rw [hboard, heltec_vbat_board]

/-- C5 (amended), at the argument 4 V on boards whose ADC delivers 1000 and 0,
and at the argument `-1` on a board whose ADC delivers 900 (about 3.77 V):
the measurement is made and the result is 44. -/
theorem battery_percent_pure_witness :
    ((4 : ℚ) ≠ -1 ∧
      (heltec_battery_percent 4 ⟨1000, []⟩).result = (heltec_battery_percent 4 ⟨0, []⟩).result ∧
      (heltec_battery_percent 4 ⟨1000, []⟩).reads = (heltec_battery_percent 4 ⟨0, []⟩).reads ∧
      (heltec_battery_percent 4 ⟨1000, []⟩).board = ⟨1000, []⟩ ∧
      (heltec_battery_percent 4 ⟨0, []⟩).board = ⟨0, []⟩) ∧
    ((-1 : ℚ) = -1 ∧
      (heltec_battery_percent (-1) ⟨900, []⟩).result = Outcome.returned 44 ∧
      (heltec_battery_percent (-1) ⟨900, []⟩).board.log =
        [HwOp.pinMode 37 PinMode.OUTPUT, HwOp.digitalWrite 37 PinLevel.LOW, HwOp.delay 5,
         HwOp.analogRead 1, HwOp.pinMode 37 PinMode.INPUT]) :=
  ⟨⟨by norm_num, (battery_percent_pure 4 ⟨1000, []⟩ ⟨0, []⟩).1 (by norm_num)⟩,
   ⟨rfl,
    ((battery_percent_pure (-1) ⟨900, []⟩ ⟨0, []⟩).2 rfl).2.1.trans
      (battery_percent_measured_900 [] ⟨0, []⟩),
    ((battery_percent_pure (-1) ⟨900, []⟩ ⟨0, []⟩).2 rfl).2.2.2.2.2.2⟩⟩

/-- C7 (as stated, refuted): entry 50 of the curve is 159, not 195; the
voltage at the threshold of the value 195 gives 78, and the voltage at the
threshold of entry 50 gives 49; neither gives 50. -/
theorem battery_percent_threshold_50_not_50 :
    scaled_voltage[50]? = some 159 ∧
    (heltec_battery_percent (3.04 + ((4.26 - 3.04) / 256) * 195) ⟨0, []⟩).result =
      Outcome.returned 78 ∧
    (heltec_battery_percent (3.04 + ((4.26 - 3.04) / 256) * 159) ⟨0, []⟩).result =
      Outcome.returned 49 := by
  refine ⟨rfl, ?_, ?_⟩
  · have hne : (3.04 + ((4.26 - 3.04) / 256) * 195 : ℚ) ≠ -1 := by norm_num
    have hv : (3.04 + ((4.26 - 3.04) / 256) * 195 : ℚ) =
        min_voltage + (((max_voltage - min_voltage) / 256) * ((195 : Nat) : ℚ)) := by
      unfold min_voltage max_voltage; norm_num
    have hh := (battery_percent_hit _ ⟨0, []⟩ 22 (by norm_num)
      (by rw [scanned_voltage_of_ne hne, hv, exceeds_at_level, curve_22]; norm_num)
      (by
        intro j hj
        rw [scanned_voltage_of_ne hne, hv, exceeds_at_level]
        exact curve_head_22 j hj)).1
    rw [hh]; norm_num
  · have hne : (3.04 + ((4.26 - 3.04) / 256) * 159 : ℚ) ≠ -1 := by norm_num
    have hv : (3.04 + ((4.26 - 3.04) / 256) * 159 : ℚ) =
        min_voltage + (((max_voltage - min_voltage) / 256) * ((159 : Nat) : ℚ)) := by
      unfold min_voltage max_voltage; norm_num
    have hh := (battery_percent_hit _ ⟨0, []⟩ 51 (by norm_num)
      (by rw [scanned_voltage_of_ne hne, hv, exceeds_at_level, curve_51]; norm_num)
      (by
        intro j hj
        rw [scanned_voltage_of_ne hne, hv, exceeds_at_level]
        exact curve_head_50 j hj)).1
    rw [hh]; norm_num

/-- C7 (amended): with `min_voltage = 3.04`, `max_voltage = 4.26` and the
compiled-in curve, the call at the voltage exactly at the threshold of curve
index 50, `3.04 + ((4.26 - 3.04) / 256) * scaled_voltage[50]` where
`scaled_voltage[50]` is 159, returns 49 on every board, after reading the
indices 0 to 51. -/
theorem battery_percent_at_threshold_50 (b : Board) :
    scaled_voltage[50]? = some (curve 50) ∧ curve 50 = 159 ∧
    min_voltage = 3.04 ∧ max_voltage = 4.26 ∧
    (heltec_battery_percent
      (min_voltage + ((max_voltage - min_voltage) / 256) * (curve 50 : ℚ)) b).result =
      Outcome.returned 49 ∧
    (heltec_battery_percent
      (min_voltage + ((max_voltage - min_voltage) / 256) * (curve 50 : ℚ)) b).reads =
      List.range 52 := by
  have hne : min_voltage + ((max_voltage - min_voltage) / 256) * (curve 50 : ℚ) ≠ -1 := by
    rw [curve_50]; unfold min_voltage max_voltage; norm_num
  have hh := battery_percent_hit _ b 51 (by norm_num)
    (by rw [scanned_voltage_of_ne hne, exceeds_at_level, curve_51, curve_50]; norm_num)
    (by
      intro j hj
      rw [scanned_voltage_of_ne hne, exceeds_at_level, curve_50]
      exact curve_head_50 j hj)
  refine ⟨rfl, rfl, rfl, rfl, ?_, ?_⟩
  · rw [hh.1]; norm_num
  · rw [hh.2]; rfl

/-- C10: for every index `n` in 1..99 whose curve entry equals the entry
before it, no argument and no board make the call return `100 - n`. -/
theorem battery_percent_unreachable (n : Nat) (h1 : 1 ≤ n) (h99 : n ≤ 99)
    (heq : scaled_voltage[n]? = scaled_voltage[n - 1]?) (vbat : ℚ) (b : Board) :
    (heltec_battery_percent vbat b).result ≠ Outcome.returned (100 - (n : Int)) := by
  have hc : curve n = curve (n - 1) := by
    rw [scaled_voltage_get n (by omega), scaled_voltage_get (n - 1) (by omega)] at heq
    exact Option.some.inj heq
  intro hres
  rcases battery_percent_cases vbat b with ⟨k, hk, hex, hmiss, hr, _⟩ | ⟨_, hr, _⟩
  · rw [hr] at hres
    have hkn : k = n := by
      have := Outcome.returned.inj hres
      omega
    subst hkn
    apply hmiss (k - 1) (by omega)
    unfold exceeds at hex ⊢
    rw [← hc]
    exact hex
  · rw [hr] at hres
    have := Outcome.returned.inj hres
    omega

/-- C10, at index 12: entries 11 and 12 are both 202, and 88 is never
returned. -/
theorem battery_percent_unreachable_witness :
    (1 ≤ 12 ∧ 12 ≤ 99 ∧ scaled_voltage[12]? = scaled_voltage[12 - 1]?) ∧
    scaled_voltage[11]? = some 202 ∧ scaled_voltage[12]? = some 202 ∧
    ∀ (vbat : ℚ) (b : Board),
      (heltec_battery_percent vbat b).result ≠ Outcome.returned 88 :=
  ⟨⟨by decide, by decide, rfl⟩, rfl, rfl,
   fun vbat b => battery_percent_unreachable 12 (by decide) (by decide) rfl vbat b⟩

/-! ## Temperature estimator: the claims -/

lemma cutoff_0 : cutoff 0 = -30 := by simp [cutoff, cutoffs]

lemma cutoff_1 : cutoff 1 = -10 := by simp [cutoff, cutoffs]

lemma cutoff_2 : cutoff 2 = 80 := by simp [cutoff, cutoffs]

lemma cutoff_3 : cutoff 3 = 100 := by simp [cutoff, cutoffs]

lemma cutoff_4 : cutoff 4 = 2500 := by simp [cutoff, cutoffs]

/-- Number of reads among the calls of ranges `0..k`: one per range. -/
lemma reads_of_build_calls (v k : Nat) (hk : k < 5) :
    (((List.range' 0 (k + 1)).flatMap (build_calls_of_range v)).map driver_op).count
      DriverOp.read = k + 1 := by
  by_cases hv : v ≥ 3
  · have hb : build_calls_of_range v = calls_of_range := by
      funext n; unfold build_calls_of_range; rw [if_pos hv]
    rw [hb]
    interval_cases k <;> decide
  · have hb : build_calls_of_range v = legacy_calls_of_range := by
      funext n; unfold build_calls_of_range; rw [if_neg hv]
    rw [hb]
    interval_cases k <;> decide

/-- The operations behind the calls of ranges `0..k` of a build. -/
lemma ops_of_build_calls (v k : Nat) (hk : k < 5) :
    ((List.range' 0 (k + 1)).flatMap (build_calls_of_range v)).map driver_op =
      build_sequence v k := by
  unfold build_sequence
  by_cases hv : v ≥ 3
  · have hb : build_calls_of_range v = calls_of_range := by
      funext n; unfold build_calls_of_range; rw [if_pos hv]
    have hs : build_sequence_of_range v = full_sequence_of_range := by
      funext n; unfold build_sequence_of_range full_sequence_of_range; rw [if_pos hv]; rfl
    rw [hb, hs]
    interval_cases k <;> decide
  · have hb : build_calls_of_range v = legacy_calls_of_range := by
      funext n; unfold build_calls_of_range; rw [if_neg hv]
    have hs : build_sequence_of_range v = build_sequence_of_range 0 := by
      funext n; unfold build_sequence_of_range; rw [if_neg hv]; rfl
    rw [hb, hs]
    interval_cases k <;> decide

/-- Enables, disables and the final state of the sensor for the operations
of ranges `0..k` of a build. -/
lemma protocol_of_build_sequence (v k : Nat) (hk : k < 5) :
    (build_sequence v k).count DriverOp.read = k + 1 ∧
    (build_sequence v k).count DriverOp.enable = k + 1 ∧
    (build_sequence v k).count DriverOp.disable = k + 1 ∧
    (build_sequence v k).count DriverOp.release = (if v ≥ 3 then k + 1 else 0) ∧
    sensor_after SensorState.released (build_sequence v k) =
      some (if v ≥ 3 then SensorState.released else SensorState.disabled) := by
  unfold build_sequence
  by_cases hv : v ≥ 3
  · have hs : build_sequence_of_range v = full_sequence_of_range := by
      funext n; unfold build_sequence_of_range full_sequence_of_range; rw [if_pos hv]; rfl
    rw [hs, if_pos hv, if_pos hv]
    interval_cases k <;> decide
  · have hs : build_sequence_of_range v = build_sequence_of_range 0 := by
      funext n; unfold build_sequence_of_range; rw [if_neg hv]; rfl
    rw [hs, if_neg hv, if_neg hv]
    interval_cases k <;> decide

lemma release_mem_full_sequence (k : Nat) : DriverOp.release ∈ full_sequence k := by
  unfold full_sequence
  rw [List.mem_flatMap]
  exact ⟨0, List.mem_range.mpr (Nat.succ_pos k), by decide⟩

/-- C6: with a driver all of whose calls succeed and readings `r 0 .. r 4`,
in either build, `heltec_temperature` returns `r k` after `k + 1` reads, where
`k` is the least index whose reading is at or below its cutoff
(-30, -10, 80, 100, 2500), and `k = 4` when none of the first four is; a
reading `r 0 ≤ -30` is returned after one read, and `r 0 = 40` sends the scan
on to a later range. -/
theorem temperature_first_accepted (v : Nat) (r : Nat → ℚ) :
    ∃ k, k < 5 ∧ (r k ≤ cutoff k ∨ k = 4) ∧ (∀ j, j < k → ¬ r j ≤ cutoff j) ∧
      (heltec_temperature v (succeeding r)).result = Outcome.returned (r k) ∧
      (sensor_ops (heltec_temperature v (succeeding r))).count DriverOp.read = k + 1 ∧
      (r 0 ≤ -30 → k = 0) ∧ (r 0 = 40 → 1 ≤ k) ∧
      cutoffs = [-30, -10, 80, 100, 2500] := by
  obtain ⟨k, hk, hacc, hrej⟩ := accepted_index_exists r
  refine ⟨k, hk, hacc, hrej, ?_, ?_, ?_, ?_, rfl⟩
  · rw [heltec_temperature_accept v r k hk hacc hrej]
  · unfold sensor_ops
    rw [heltec_temperature_accept v r k hk hacc hrej]
    exact reads_of_build_calls v k hk
  · intro h0
    by_contra hne
    exact hrej 0 (by omega) (by rw [cutoff_0]; exact h0)
  · intro h40
    by_contra hne
    have hk0 : k = 0 := by omega
    subst hk0
    rcases hacc with h | h
    · rw [cutoff_0, h40] at h
      norm_num at h
    · omega

/-- C8 (as stated, refuted): in a build with `ESP_ARDUINO_VERSION_MAJOR = 2`
and a first reading of -40, the function returns -40 after the operations
configure, enable, read, disable; no release is performed, so the operations
are not the five-step sequence of any number of ranges and the sensor is left
disabled, not released. -/
theorem temperature_legacy_no_release :
    (heltec_temperature 2 (succeeding fun _ => -40)).result = Outcome.returned (-40) ∧
    sensor_ops (heltec_temperature 2 (succeeding fun _ => -40)) =
      [DriverOp.configure (-40) 20, DriverOp.enable, DriverOp.read, DriverOp.disable] ∧
    DriverOp.release ∉ sensor_ops (heltec_temperature 2 (succeeding fun _ => -40)) ∧
    (∀ k, sensor_ops (heltec_temperature 2 (succeeding fun _ => -40)) ≠ full_sequence k) ∧
    sensor_after SensorState.released
      (sensor_ops (heltec_temperature 2 (succeeding fun _ => -40))) =
      some SensorState.disabled := by
  have hrun := heltec_temperature_accept 2 (fun _ => -40) 0 (by norm_num)
    (Or.inl (by rw [cutoff_0]; norm_num)) (fun j hj => absurd hj (Nat.not_lt_zero j))
  rw [hrun]
  refine ⟨rfl, by decide, by decide, ?_, by decide⟩
  intro k hk
  have hmem := release_mem_full_sequence k
  rw [← hk] at hmem
  revert hmem
  decide

/-- C8 (amended): with a driver all of whose calls succeed, `heltec_temperature`
returns `r k` for the accepted index `k < 5` after using the sensor in strict
per-range sequence for the ranges `0..k`: configure for the range, enable, one
read, disable, and then release in builds with `ESP_ARDUINO_VERSION_MAJOR >= 3`
only (the legacy driver has no release call). No operation is out of order,
the number of reads is between 1 and 5 and equals the number of enables and of
disables, and at return the sensor is disabled, and released in builds with
`ESP_ARDUINO_VERSION_MAJOR >= 3`. -/
theorem temperature_sensor_sequence (v : Nat) (r : Nat → ℚ) :
    ∃ k, k < 5 ∧ (r k ≤ cutoff k ∨ k = 4) ∧ (∀ j, j < k → ¬ r j ≤ cutoff j) ∧
      (heltec_temperature v (succeeding r)).result = Outcome.returned (r k) ∧
      sensor_ops (heltec_temperature v (succeeding r)) = build_sequence v k ∧
      1 ≤ (sensor_ops (heltec_temperature v (succeeding r))).count DriverOp.read ∧
      (sensor_ops (heltec_temperature v (succeeding r))).count DriverOp.read ≤ 5 ∧
      (sensor_ops (heltec_temperature v (succeeding r))).count DriverOp.enable =
        (sensor_ops (heltec_temperature v (succeeding r))).count DriverOp.read ∧
      (sensor_ops (heltec_temperature v (succeeding r))).count DriverOp.disable =
        (sensor_ops (heltec_temperature v (succeeding r))).count DriverOp.read ∧
      (sensor_ops (heltec_temperature v (succeeding r))).count DriverOp.release =
        (if v ≥ 3 then k + 1 else 0) ∧
      sensor_after SensorState.released (sensor_ops (heltec_temperature v (succeeding r))) =
        some (if v ≥ 3 then SensorState.released else SensorState.disabled) := by
  obtain ⟨k, hk, hacc, hrej⟩ := accepted_index_exists r
  obtain ⟨hread, hen, hdis, hrel, hafter⟩ := protocol_of_build_sequence v k hk
  have hops : sensor_ops (heltec_temperature v (succeeding r)) = build_sequence v k := by
    unfold sensor_ops
    rw [heltec_temperature_accept v r k hk hacc hrej]
    exact ops_of_build_calls v k hk
  refine ⟨k, hk, hacc, hrej, ?_, hops, ?_, ?_, ?_, ?_, ?_, ?_⟩
  · rw [heltec_temperature_accept v r k hk hacc hrej]
  · rw [hops, hread]; omega
  · rw [hops, hread]; omega
  · rw [hops, hen, hread]
  · rw [hops, hdis, hread]
  · rw [hops]; exact hrel
  · rw [hops]; exact hafter

end Heltec
